import Mathlib

/-!
Shallow embedding of the OpenControlHead core (apps/ui/src/pcm.py,
switches.py, patterns.py, effects.py) and proofs about it.

Python dictionaries are modelled as association lists; Python exceptions
(KeyError from dictionary indexing) are modelled with Except; Python float
parameters are modelled as rationals; mutation is modelled by explicit state
passing.  Indexing a dictionary with a missing key raises, so every operation
that indexes a dictionary returns Except.
-/

namespace OpenControlHead

/-- The Python exception that dictionary indexing raises on a missing key. -/
inductive PyError where
  | KeyError
deriving DecidableEq

/-- pcm.py ChannelHealth enum. -/
inductive ChannelHealth where
  | UNKNOWN
  | OFF
  | ON
  | SHORT
  | OPEN
deriving DecidableEq

/-- pcm.py ChannelState: last-known state of a single high-side channel. -/
structure ChannelState where
  index : Int
  health : ChannelHealth := ChannelHealth.UNKNOWN
  current_amps : Rat := 0
  requested_on : Bool := false
  actual_on : Bool := false
deriving DecidableEq

/-- pcm.py PCMDevice.  The CAN handle is omitted: no modelled operation ever
    sends a frame (set_channel_on / set_channel_off only log and mutate the
    channels dictionary).  The adc_channels and gpio_pins dictionaries are
    created empty and are untouched by every modelled operation, so they are
    omitted as well. -/
structure PCMDevice where
  node_id : Int
  name : String
  channels : List (Int × ChannelState)
  online : Bool := false
deriving DecidableEq

/-- pcm.py PCMDevice.NUM_CHANNELS. -/
def PCMDevice.NUM_CHANNELS : Nat := 26

/-- The channels dictionary built in PCMDevice.__init__:
    i : ChannelState(index=i) for i in range(NUM_CHANNELS). -/
def initChannels : List (Int × ChannelState) :=
  (List.range PCMDevice.NUM_CHANNELS).map
    (fun (i : Nat) => ((i : Int), ({ index := (i : Int) } : ChannelState)))

/-- PCMDevice.__init__ (the name defaults to PCM-id when none is given). -/
def mkPCMDevice (node_id : Int) (name : Option String) : PCMDevice :=
  { node_id := node_id
    name := name.getD ("PCM-" ++ toString node_id)
    channels := initChannels
    online := false }

/-- Update the value stored at key k of an association list, in place
    (models mutating the object stored in a Python dictionary). -/
def dictMapAt {κ β : Type} [BEq κ] (m : List (κ × β)) (k : κ) (f : β → β) :
    List (κ × β) :=
  m.map (fun p => cond (p.1 == k) (p.1, f p.2) p)

/-- Python dictionary assignment d[k] = v: replace in place when the key is
    present, append otherwise. -/
def dictSet {κ β : Type} [BEq κ] (m : List (κ × β)) (k : κ) (v : β) :
    List (κ × β) :=
  if (m.lookup k).isSome then dictMapAt m k (fun _ => v) else m ++ [(k, v)]

/-- Set the requested_on field, leaving every other field alone. -/
def setReq (v : Bool) (c : ChannelState) : ChannelState := { c with requested_on := v }

/-- The channels-dictionary update performed by set_channel_on (v = true)
    and set_channel_off (v = false). -/
def chanUpdate (cs : List (Int × ChannelState)) (ch : Int) (v : Bool) :
    List (Int × ChannelState) :=
  dictMapAt cs ch (setReq v)

/-- pcm.py PCMDevice.set_channel_on: self.channels[channel].requested_on = True.
    Indexing raises KeyError when the channel key is absent; the remaining
    statements only log. -/
def PCMDevice.set_channel_on (d : PCMDevice) (channel : Int) :
    Except PyError PCMDevice :=
  match d.channels.lookup channel with
  | none => Except.error PyError.KeyError
  | some _ => Except.ok { d with channels := chanUpdate d.channels channel true }

/-- pcm.py PCMDevice.set_channel_off: self.channels[channel].requested_on = False. -/
def PCMDevice.set_channel_off (d : PCMDevice) (channel : Int) :
    Except PyError PCMDevice :=
  match d.channels.lookup channel with
  | none => Except.error PyError.KeyError
  | some _ => Except.ok { d with channels := chanUpdate d.channels channel false }

/-- pcm.py PCMDevice.get_channel_state: return self.channels[channel]
    (KeyError when absent). -/
def PCMDevice.get_channel_state (d : PCMDevice) (channel : Int) :
    Except PyError ChannelState :=
  match d.channels.lookup channel with
  | none => Except.error PyError.KeyError
  | some c => Except.ok c

/-- pcm.py PCMManager: the shared CAN handle is omitted (unused by the
    modelled operations); _pcms is the node_id-keyed device dictionary. -/
structure PCMManager where
  pcms : List (Int × PCMDevice)
deriving DecidableEq

/-- A freshly constructed PCMManager (empty device dictionary). -/
def PCMManager.empty : PCMManager := { pcms := [] }

/-- pcm.py PCMManager.add_pcm: build a fresh device and assign
    self._pcms[node_id] = device unconditionally, returning the device. -/
def PCMManager.add_pcm (m : PCMManager) (node_id : Int) (name : Option String) :
    PCMManager × PCMDevice :=
  let device := mkPCMDevice node_id name
  ({ pcms := dictSet m.pcms node_id device }, device)

/-- pcm.py PCMManager.get_pcm: self._pcms.get(node_id). -/
def PCMManager.get_pcm (m : PCMManager) (node_id : Int) : Option PCMDevice :=
  m.pcms.lookup node_id

/-- pcm.py PCMManager.set_channel_on: pcm = self._pcms[node_id] (KeyError when
    absent), then pcm.set_channel_on(channel), mutating the stored device. -/
def PCMManager.set_channel_on (m : PCMManager) (node_id channel : Int) :
    Except PyError PCMManager :=
  match m.pcms.lookup node_id with
  | none => Except.error PyError.KeyError
  | some pcm =>
    match pcm.set_channel_on channel with
    | Except.error e => Except.error e
    | Except.ok pcm2 => Except.ok { pcms := dictSet m.pcms node_id pcm2 }

/-- pcm.py PCMManager.set_channel_off: same shape as set_channel_on. -/
def PCMManager.set_channel_off (m : PCMManager) (node_id channel : Int) :
    Except PyError PCMManager :=
  match m.pcms.lookup node_id with
  | none => Except.error PyError.KeyError
  | some pcm =>
    match pcm.set_channel_off channel with
    | Except.error e => Except.error e
    | Except.ok pcm2 => Except.ok { pcms := dictSet m.pcms node_id pcm2 }

/-- pcm.py PCMManager.get_channel_state: pcm = self._pcms[node_id] (KeyError
    when absent), then pcm.get_channel_state(channel). -/
def PCMManager.get_channel_state (m : PCMManager) (node_id channel : Int) :
    Except PyError ChannelState :=
  match m.pcms.lookup node_id with
  | none => Except.error PyError.KeyError
  | some pcm => pcm.get_channel_state channel

/-- Observation helper: the stored ChannelState for (node_id, channel), when
    both the device and the channel key resolve. -/
def chanState (m : PCMManager) (node_id channel : Int) : Option ChannelState :=
  (m.get_pcm node_id).bind (fun d => d.channels.lookup channel)

/-- A device whose channels dictionary has exactly the keys 0..NUM_CHANNELS-1,
    as built by PCMDevice.__init__ and preserved by every channel command. -/
def PCMDevice.ChannelsWF (d : PCMDevice) : Prop :=
  ∀ i : Int,
    (d.channels.lookup i).isSome = true ↔ 0 ≤ i ∧ i < (PCMDevice.NUM_CHANNELS : Int)

/-- switches.py ChannelBinding (frozen dataclass, field-wise equality). -/
structure ChannelBinding where
  node_id : Int
  channel_index : Int
  label : Option String := none
  pwm_capable : Bool := false
deriving DecidableEq

/-- switches.py SwitchState enum. -/
inductive SwitchState where
  | UNKNOWN
  | OFF
  | ON
  | PARTIAL
  | FAULT
deriving DecidableEq

/-- switches.py SwitchType enum. -/
inductive SwitchType where
  | TOGGLE
  | MOMENTARY
  | CYCLE
deriving DecidableEq

/-- switches.py LogicalSwitch.  The PCMManager reference is passed explicitly
    to each operation instead of being stored; _cycles defaults to the empty
    list and _cycle_index starts at 0 (the constructor). -/
structure LogicalSwitch where
  name : String
  bindings : List ChannelBinding
  switch_type : SwitchType := SwitchType.TOGGLE
  cycles : List (List ChannelBinding) := []
  cycle_index : Nat := 0
deriving DecidableEq

/-- The command loop shared by LogicalSwitch.on (v = true), LogicalSwitch.off
    (v = false) and both loops of LogicalSwitch.cycle: iterate the bindings in
    order, skip (with a logged warning) bindings whose PCM node is not
    registered, command the rest.  A KeyError raised by a command (channel
    index missing from the channels dictionary) propagates. -/
def cmdSet (v : Bool) : PCMManager → List ChannelBinding → Except PyError PCMManager
  | pm, [] => Except.ok pm
  | pm, b :: rest =>
    match pm.get_pcm b.node_id with
    | none => cmdSet v pm rest
    | some pcm =>
      match (if v then pcm.set_channel_on b.channel_index
             else pcm.set_channel_off b.channel_index) with
      | Except.error e => Except.error e
      | Except.ok pcm2 => cmdSet v { pcms := dictSet pm.pcms b.node_id pcm2 } rest

/-- switches.py LogicalSwitch.on: command every bound channel ON. -/
def LogicalSwitch.on (sw : LogicalSwitch) (pm : PCMManager) : Except PyError PCMManager :=
  cmdSet true pm sw.bindings

/-- switches.py LogicalSwitch.off: command every bound channel OFF. -/
def LogicalSwitch.off (sw : LogicalSwitch) (pm : PCMManager) : Except PyError PCMManager :=
  cmdSet false pm sw.bindings

/-- switches.py LogicalSwitch.iter_channel_states on a binding list: yield the
    ChannelState of each binding whose PCM node is registered (unregistered
    nodes are skipped); get_channel_state raises KeyError on a missing
    channel key. -/
def iterStates (pm : PCMManager) : List ChannelBinding → Except PyError (List ChannelState)
  | [] => Except.ok []
  | b :: rest =>
    match pm.get_pcm b.node_id with
    | none => iterStates pm rest
    | some pcm =>
      match pcm.get_channel_state b.channel_index with
      | Except.error e => Except.error e
      | Except.ok st =>
        match iterStates pm rest with
        | Except.error e => Except.error e
        | Except.ok sts => Except.ok (st :: sts)

/-- switches.py LogicalSwitch.iter_channel_states. -/
def LogicalSwitch.iter_channel_states (sw : LogicalSwitch) (pm : PCMManager) :
    Except PyError (List ChannelState) :=
  iterStates pm sw.bindings

/-- switches.py LogicalSwitch.get_state: UNKNOWN when no states were
    collected, FAULT when any health is SHORT or OPEN, then OFF (all off),
    ON (all on), PARTIAL (mixed), in that order. -/
def LogicalSwitch.get_state (sw : LogicalSwitch) (pm : PCMManager) :
    Except PyError SwitchState :=
  match sw.iter_channel_states pm with
  | Except.error e => Except.error e
  | Except.ok states =>
    if states.isEmpty then Except.ok SwitchState.UNKNOWN
    else if states.any (fun st =>
        st.health == ChannelHealth.SHORT || st.health == ChannelHealth.OPEN) then
      Except.ok SwitchState.FAULT
    else if states.all (fun st => !st.actual_on) then Except.ok SwitchState.OFF
    else if states.all (fun st => st.actual_on) then Except.ok SwitchState.ON
    else Except.ok SwitchState.PARTIAL

/-- switches.py LogicalSwitch.toggle: all OFF when the derived state is ON,
    all ON otherwise. -/
def LogicalSwitch.toggle (sw : LogicalSwitch) (pm : PCMManager) :
    Except PyError PCMManager :=
  match sw.get_state pm with
  | Except.error e => Except.error e
  | Except.ok st =>
    if st = SwitchState.ON then sw.off pm else sw.on pm

/-- switches.py LogicalSwitch.cycle: with no configured cycles, log and
    return (the fallback to toggle is commented out in the source).
    Otherwise advance the cycle index modulo the number of steps, command ON
    every binding of the new step, then command OFF every bound binding not in
    the new step.  On a KeyError the Python object would keep the advanced
    index, but no claim observes state after an exception, so the error
    carries no state. -/
def LogicalSwitch.cycle (sw : LogicalSwitch) (pm : PCMManager) :
    Except PyError (LogicalSwitch × PCMManager) :=
  if sw.cycles.isEmpty then Except.ok (sw, pm)
  else
    let idx := (sw.cycle_index + 1) % sw.cycles.length
    let step := sw.cycles.getD idx []
    match cmdSet true pm step with
    | Except.error e => Except.error e
    | Except.ok pm1 =>
      match cmdSet false pm1 (sw.bindings.filter (fun b => decide (b ∉ step))) with
      | Except.error e => Except.error e
      | Except.ok pm2 => Except.ok ({ sw with cycle_index := idx }, pm2)

/-- switches.py LogicalSwitch.press: dispatch on the switch type. -/
def LogicalSwitch.press (sw : LogicalSwitch) (pm : PCMManager) :
    Except PyError (LogicalSwitch × PCMManager) :=
  match sw.switch_type with
  | SwitchType.TOGGLE =>
    match sw.toggle pm with
    | Except.error e => Except.error e
    | Except.ok pm2 => Except.ok (sw, pm2)
  | SwitchType.MOMENTARY =>
    match sw.on pm with
    | Except.error e => Except.error e
    | Except.ok pm2 => Except.ok (sw, pm2)
  | SwitchType.CYCLE => sw.cycle pm

/-- switches.py LogicalSwitch.release: off for MOMENTARY, no action otherwise. -/
def LogicalSwitch.release (sw : LogicalSwitch) (pm : PCMManager) :
    Except PyError PCMManager :=
  match sw.switch_type with
  | SwitchType.MOMENTARY => sw.off pm
  | _ => Except.ok pm

/-- k repetitions of LogicalSwitch.press, threading the switch and manager
    state. -/
def pressN : Nat → LogicalSwitch → PCMManager → Except PyError (LogicalSwitch × PCMManager)
  | 0, sw, pm => Except.ok (sw, pm)
  | k + 1, sw, pm =>
    match sw.press pm with
    | Except.error e => Except.error e
    | Except.ok (sw2, pm2) => pressN k sw2 pm2

/-- switches.py SwitchManager: the name-keyed switch dictionary. -/
structure SwitchManager where
  switches : List (String × LogicalSwitch)
deriving DecidableEq

/-- A freshly constructed SwitchManager. -/
def SwitchManager.empty : SwitchManager := { switches := [] }

/-- switches.py SwitchManager.register_switch: build the LogicalSwitch
    (cycles defaulting to the empty list) and assign it into the dictionary. -/
def SwitchManager.register_switch (sm : SwitchManager) (name : String)
    (bindings : List ChannelBinding) (type : SwitchType)
    (cycles : Option (List (List ChannelBinding))) : SwitchManager × LogicalSwitch :=
  let sw : LogicalSwitch :=
    { name := name, bindings := bindings, switch_type := type,
      cycles := cycles.getD [], cycle_index := 0 }
  ({ switches := dictSet sm.switches name sw }, sw)

/-- switches.py SwitchManager.set_switch_on: look the name up with dict.get;
    when absent do nothing, otherwise call on(). -/
def SwitchManager.set_switch_on (sm : SwitchManager) (name : String)
    (pm : PCMManager) : Except PyError PCMManager :=
  match sm.switches.lookup name with
  | none => Except.ok pm
  | some sw => sw.on pm

/-- switches.py SwitchManager.set_switch_off. -/
def SwitchManager.set_switch_off (sm : SwitchManager) (name : String)
    (pm : PCMManager) : Except PyError PCMManager :=
  match sm.switches.lookup name with
  | none => Except.ok pm
  | some sw => sw.off pm

/-- switches.py SwitchManager.toggle_switch. -/
def SwitchManager.toggle_switch (sm : SwitchManager) (name : String)
    (pm : PCMManager) : Except PyError PCMManager :=
  match sm.switches.lookup name with
  | none => Except.ok pm
  | some sw => sw.toggle pm

/-- Every binding of the switch addresses a registered device and an existing
    channel key of that device. -/
def Resolves (sw : LogicalSwitch) (pm : PCMManager) : Prop :=
  ∀ b ∈ sw.bindings, (chanState pm b.node_id b.channel_index).isSome = true

instance (sw : LogicalSwitch) (pm : PCMManager) : Decidable (Resolves sw pm) := by
  unfold Resolves
  exact List.decidableBAll _ sw.bindings

/-- The spec invariant for CYCLE switches: every cycle step is a subset of the
    bound channel set. -/
def StepsWF (sw : LogicalSwitch) : Prop :=
  ∀ s ∈ sw.cycles, ∀ b ∈ s, b ∈ sw.bindings

instance (sw : LogicalSwitch) : Decidable (StepsWF sw) := by
  unfold StepsWF
  exact List.decidableBAll _ sw.cycles

/-- Distinct bindings of the list address distinct (node_id, channel_index)
    pairs, so that bindings and physical channels are in bijection. -/
def KeyInj (l : List ChannelBinding) : Prop :=
  ∀ b ∈ l, ∀ b2 ∈ l,
    b.node_id = b2.node_id → b.channel_index = b2.channel_index → b = b2

instance (l : List ChannelBinding) : Decidable (KeyInj l) := by
  unfold KeyInj
  exact List.decidableBAll _ l

/-- Some binding in the list addresses the physical channel (n, c). -/
def touches (l : List ChannelBinding) (n c : Int) : Prop :=
  ∃ b ∈ l, b.node_id = n ∧ b.channel_index = c

instance (l : List ChannelBinding) (n c : Int) : Decidable (touches l n c) := by
  unfold touches
  exact List.decidableBEx _ l

/-- patterns.py PatternTargetType enum. -/
inductive PatternTargetType where
  | CHANNEL
  | SWITCH
deriving DecidableEq

/-- patterns.py PatternTarget (frozen dataclass). -/
structure PatternTarget where
  type : PatternTargetType
  node_id : Option Int := none
  channel_index : Option Int := none
  switch_name : Option String := none
deriving DecidableEq

/-- patterns.py BlinkPattern parameters (floats modelled as rationals). -/
structure BlinkPattern where
  name : String
  targets : List PatternTarget
  period_s : Rat
  duty_cycle : Rat := 1 / 2
  phase_offset_s : Rat := 0
deriving DecidableEq

/-- patterns.py BlinkPattern.evaluate: the body is an unimplemented stub
    (a literal ellipsis followed by return, with only a comment describing
    the intended computation), so it returns the empty mapping for every
    input time. -/
def BlinkPattern.evaluate (_p : BlinkPattern) (_now_s : Rat) :
    List (PatternTarget × Bool) :=
  []

/-- patterns.py WigWagPattern parameters. -/
structure WigWagPattern where
  name : String
  group_a : List PatternTarget
  group_b : List PatternTarget
  interval_s : Rat
deriving DecidableEq

/-- patterns.py WigWagPattern.evaluate: likewise an unimplemented stub
    returning the empty mapping. -/
def WigWagPattern.evaluate (_p : WigWagPattern) (_now_s : Rat) :
    List (PatternTarget × Bool) :=
  []

/-- The real-valued floor-based modulus used by the spec blink formula. -/
def ratMod (x y : Rat) : Rat := x - y * (⌊x / y⌋ : Rat)

/-- Modelled from the spec: the per-target blink value that
    BlinkPattern.evaluate is documented to produce but leaves unimplemented -
    ON iff ((now - phase) mod period) / period is below the duty cycle. -/
def blinkSpecOn (p : BlinkPattern) (now_s : Rat) : Bool :=
  decide (ratMod (now_s - p.phase_offset_s) p.period_s / p.period_s < p.duty_cycle)

/-- The registered patterns of effects.py, closed over the two concrete
    pattern classes of patterns.py. -/
inductive PatternObj where
  | blink (p : BlinkPattern)
  | wigwag (p : WigWagPattern)
deriving DecidableEq

/-- effects.py ChannelOwner: who owns a channel and the last applied value
    (bool, or float for future PWM). -/
structure ChannelOwner where
  owner_id : String
  value : Bool ⊕ Rat
deriving DecidableEq

/-- effects.py PatternEngine dictionaries: all known patterns, the active
    subset, and the (node_id, channel) ownership table.  The PCM and switch
    manager references are passed explicitly to the operations that use
    them. -/
structure PatternEngine where
  patterns : List (String × PatternObj)
  active : List (String × PatternObj)
  channel_owners : List ((Int × Int) × ChannelOwner)
deriving DecidableEq

/-- effects.py PatternEngine.stop_all: clear the active dictionary and the
    ownership dictionary.  The body touches neither the PCM manager nor the
    switch manager, so the manager state passes through unchanged. -/
def PatternEngine.stop_all (e : PatternEngine) (pm : PCMManager) :
    PatternEngine × PCMManager :=
  ({ e with active := [], channel_owners := [] }, pm)

/-! Concrete states used to instantiate hypotheses and to refute claims. -/

/-- A binding to channel 0 of PCM node 1. -/
def bEx : ChannelBinding := { node_id := 1, channel_index := 0 }

/-- A binding to channel 1 of PCM node 1. -/
def bEx1 : ChannelBinding := { node_id := 1, channel_index := 1 }

/-- A manager holding one freshly added PCM at node 1. -/
def pmEx : PCMManager := (PCMManager.empty.add_pcm 1 (some "Front PCM")).1

/-- A CYCLE switch over channel 0 whose single cycle step is nonempty. -/
def swEx : LogicalSwitch :=
  { name := "Aux", bindings := [bEx], switch_type := SwitchType.CYCLE,
    cycles := [[bEx]], cycle_index := 0 }

/-- A CYCLE switch over two channels with the canonical all-off first step. -/
def swEx2 : LogicalSwitch :=
  { name := "Front Lights", bindings := [bEx, bEx1], switch_type := SwitchType.CYCLE,
    cycles := [[], [bEx], [bEx, bEx1]], cycle_index := 0 }

/-- A CYCLE switch with no configured cycle steps. -/
def swExEmpty : LogicalSwitch :=
  { name := "Bare", bindings := [bEx], switch_type := SwitchType.CYCLE,
    cycles := [], cycle_index := 0 }

/-- One device registered under node 1 with name A. -/
def pmDup1 : PCMManager := (PCMManager.empty.add_pcm 1 (some "A")).1

/-- The same node 1 added a second time with name B. -/
def pmDup2 : PCMManager := (pmDup1.add_pcm 1 (some "B")).1

/-- A channel target for the blink example. -/
def blinkTargetEx : PatternTarget :=
  { type := PatternTargetType.CHANNEL, node_id := some 1, channel_index := some 0 }

/-- The blink pattern of the spec end-to-end scenario: period 1 s, duty 0.5,
    no phase offset, one channel target. -/
def blinkEx : BlinkPattern :=
  { name := "blink", targets := [blinkTargetEx], period_s := 1,
    duty_cycle := 1 / 2, phase_offset_s := 0 }

/-- A fresh device used for the local-command frame examples. -/
def dEx : PCMDevice := mkPCMDevice 2 none

/-- dEx after commanding channel 3 ON. -/
def dEx2 : PCMDevice := { dEx with channels := chanUpdate dEx.channels 3 true }

end OpenControlHead

namespace OpenControlHead

/-! Association-list lemmas. -/

theorem lookup_append {κ β : Type} [BEq κ] (l₁ l₂ : List (κ × β)) (k : κ) :
    (l₁ ++ l₂).lookup k =
      (match l₁.lookup k with
       | some v => some v
       | none => l₂.lookup k) := by
  induction l₁ with
  | nil => simp [List.lookup]
  | cons p t ih =>
    obtain ⟨a, b⟩ := p
    by_cases h : k == a
    · simp [List.lookup, h]
    · simp only [Bool.not_eq_true] at h
      simp [List.lookup, h, ih]

theorem lookup_dictMapAt_self {κ β : Type} [BEq κ] [LawfulBEq κ]
    (m : List (κ × β)) (k : κ) (f : β → β) :
    (dictMapAt m k f).lookup k = (m.lookup k).map f := by
  induction m with
  | nil => simp [dictMapAt, List.lookup]
  | cons p t ih =>
    obtain ⟨a, b⟩ := p
    by_cases h : a = k
    · subst h
      simp only [dictMapAt, List.map_cons, beq_self_eq_true, cond_true, List.lookup] at ih ⊢
      simp [beq_self_eq_true]
    · have h1 : (a == k) = false := beq_eq_false_iff_ne.mpr h
      have h2 : (k == a) = false := beq_eq_false_iff_ne.mpr (Ne.symm h)
      simp only [dictMapAt, List.map_cons, h1, cond_false, List.lookup, h2] at ih ⊢
      exact ih

theorem lookup_dictMapAt_ne {κ β : Type} [BEq κ] [LawfulBEq κ]
    (m : List (κ × β)) (k k' : κ) (f : β → β) (h : k' ≠ k) :
    (dictMapAt m k f).lookup k' = m.lookup k' := by
  induction m with
  | nil => simp [dictMapAt, List.lookup]
  | cons p t ih =>
    obtain ⟨a, b⟩ := p
    by_cases ha : a = k
    · subst ha
      have h2 : (k' == a) = false := beq_eq_false_iff_ne.mpr h
      simp only [dictMapAt, List.map_cons, beq_self_eq_true, cond_true, List.lookup, h2] at ih ⊢
      exact ih
    · have h1 : (a == k) = false := beq_eq_false_iff_ne.mpr ha
      simp only [dictMapAt, List.map_cons, h1, cond_false, List.lookup] at ih ⊢
      cases hk : (k' == a) with
      | true => rfl
      | false => exact ih

theorem lookup_dictSet_self {κ β : Type} [BEq κ] [LawfulBEq κ]
    (m : List (κ × β)) (k : κ) (v : β) :
    (dictSet m k v).lookup k = some v := by
  unfold dictSet
  by_cases h : (m.lookup k).isSome = true
  · rw [if_pos h, lookup_dictMapAt_self]
    obtain ⟨w, hw⟩ := Option.isSome_iff_exists.mp h
    rw [hw]
    rfl
  · rw [if_neg h, lookup_append]
    have hnone : m.lookup k = none := by
      cases hc : m.lookup k with
      | none => rfl
      | some w => exact absurd (by rw [hc]; rfl) h
    rw [hnone]
    simp [List.lookup]

theorem lookup_dictSet_ne {κ β : Type} [BEq κ] [LawfulBEq κ]
    (m : List (κ × β)) (k k' : κ) (v : β) (h : k' ≠ k) :
    (dictSet m k v).lookup k' = m.lookup k' := by
  unfold dictSet
  by_cases hs : (m.lookup k).isSome = true
  · rw [if_pos hs, lookup_dictMapAt_ne _ _ _ _ h]
  · rw [if_neg hs, lookup_append]
    have h2 : (k' == k) = false := beq_eq_false_iff_ne.mpr h
    cases hc : m.lookup k' with
    | none => simp [List.lookup, h2]
    | some w => rfl

theorem isSome_lookup_rangeMap {β : Type} (f : Nat → β) (n : Nat) (i : Int) :
    (((List.range n).map (fun (j : Nat) => ((j : Int), f j))).lookup i).isSome = true
      ↔ 0 ≤ i ∧ i < (n : Int) := by
  induction n with
  | zero => simp [List.lookup]
  | succ n ih =>
    rw [List.range_succ, List.map_append, lookup_append]
    cases hc : ((List.range n).map (fun (j : Nat) => ((j : Int), f j))).lookup i with
    | some w =>
      have hmem : 0 ≤ i ∧ i < (n : Int) := ih.mp (by rw [hc]; rfl)
      simp only [Option.isSome_some, true_iff]
      omega
    | none =>
      have hnot : ¬(0 ≤ i ∧ i < (n : Int)) := fun hmem => by
        have := ih.mpr hmem
        rw [hc] at this
        exact absurd this (by simp)
      by_cases hi : i = (n : Int)
      · subst hi
        simp only [List.map_cons, List.map_nil, List.lookup, beq_self_eq_true,
          Option.isSome_some, true_iff]
        omega
      · have hb : (i == (n : Int)) = false := beq_eq_false_iff_ne.mpr hi
        simp only [List.map_cons, List.map_nil, List.lookup, hb]
        constructor
        · intro h
          exact absurd h (by simp)
        · intro h
          omega

/-- A freshly constructed device has exactly the channel keys 0..25. -/
theorem mkPCMDevice_wf (node_id : Int) (name : Option String) :
    (mkPCMDevice node_id name).ChannelsWF := by
  intro i
  simp only [mkPCMDevice, initChannels]
  exact isSome_lookup_rangeMap _ PCMDevice.NUM_CHANNELS i

/-- set_channel_on and set_channel_off differ only in the commanded value. -/
theorem set_channel_eq (d : PCMDevice) (ch : Int) (v : Bool) :
    (if v then d.set_channel_on ch else d.set_channel_off ch) =
      match d.channels.lookup ch with
      | none => Except.error PyError.KeyError
      | some _ => Except.ok { d with channels := chanUpdate d.channels ch v } := by
  cases v <;> rfl

/-- Effect of a single in-place device write on the observed channel states. -/
theorem chanState_cmdOne (pm : PCMManager) (k ch : Int) (v : Bool) (d : PCMDevice)
    (hd : pm.get_pcm k = some d) (n c : Int) :
    chanState
        { pcms := dictSet pm.pcms k { d with channels := chanUpdate d.channels ch v } } n c
      = if k = n ∧ ch = c then (chanState pm n c).map (setReq v)
        else chanState pm n c := by
  have hd' : pm.pcms.lookup k = some d := hd
  simp only [chanState, PCMManager.get_pcm]
  by_cases hn : k = n
  · subst hn
    rw [lookup_dictSet_self, hd']
    by_cases hc : ch = c
    · subst hc
      rw [if_pos ⟨rfl, rfl⟩]
      show (chanUpdate d.channels ch v).lookup ch = _
      rw [chanUpdate, lookup_dictMapAt_self]
      rfl
    · rw [if_neg (fun h => hc h.2)]
      show (chanUpdate d.channels ch v).lookup c = _
      rw [chanUpdate, lookup_dictMapAt_ne _ _ _ _ (Ne.symm hc)]
      rfl
  · rw [if_neg (fun h => hn h.1), lookup_dictSet_ne _ _ _ _ (Ne.symm hn)]

theorem touches_nil (n c : Int) : ¬touches [] n c := by
  rintro ⟨b, hb, -⟩
  exact absurd hb (List.not_mem_nil b)

theorem touches_cons (b : ChannelBinding) (l : List ChannelBinding) (n c : Int) :
    touches (b :: l) n c ↔ (b.node_id = n ∧ b.channel_index = c) ∨ touches l n c := by
  constructor
  · rintro ⟨b2, hb2, hkeys⟩
    rcases List.mem_cons.mp hb2 with h | h
    · exact Or.inl (h ▸ hkeys)
    · exact Or.inr ⟨b2, h, hkeys⟩
  · rintro (h | ⟨b2, hb2, hkeys⟩)
    · exact ⟨b, List.mem_cons_self b l, h⟩
    · exact ⟨b2, List.mem_cons_of_mem b hb2, hkeys⟩

theorem map_setReq_idem (o : Option ChannelState) (v : Bool) :
    (o.map (setReq v)).map (setReq v) = o.map (setReq v) := by
  cases o <;> rfl

/-- The command loop of switches.py: when every listed binding resolves, it
    succeeds, sets requested_on to the commanded value on exactly the
    addressed channels, leaves every other channel untouched, and does not
    change which devices are registered. -/
theorem cmdSet_spec (v : Bool) (l : List ChannelBinding) (pm : PCMManager)
    (hres : ∀ b ∈ l, (chanState pm b.node_id b.channel_index).isSome = true) :
    ∃ pm2, cmdSet v pm l = Except.ok pm2 ∧
      (∀ n c, chanState pm2 n c =
        if touches l n c then (chanState pm n c).map (setReq v) else chanState pm n c) ∧
      (∀ n, (pm2.get_pcm n).isSome = (pm.get_pcm n).isSome) := by
  induction l generalizing pm with
  | nil =>
    refine ⟨pm, rfl, ?_, fun _ => rfl⟩
    intro n c
    rw [if_neg (touches_nil n c)]
  | cons b rest ih =>
    have hb := hres b (List.mem_cons_self b rest)
    rw [chanState] at hb
    cases hd : pm.get_pcm b.node_id with
    | none =>
      rw [hd] at hb
      exact absurd hb (by simp)
    | some d =>
      rw [hd] at hb
      simp only [Option.some_bind] at hb
      cases hc : d.channels.lookup b.channel_index with
      | none =>
        rw [hc] at hb
        exact absurd hb (by simp)
      | some c0 =>
        have hcmd : (if v then d.set_channel_on b.channel_index
              else d.set_channel_off b.channel_index)
            = Except.ok { d with channels := chanUpdate d.channels b.channel_index v } := by
          rw [set_channel_eq, hc]
        have hchar1 := chanState_cmdOne pm b.node_id b.channel_index v d hd
        have hpres1 : ∀ n,
            ((PCMManager.mk (dictSet pm.pcms b.node_id
                { d with channels := chanUpdate d.channels b.channel_index v })).get_pcm n).isSome
              = (pm.get_pcm n).isSome := by
          intro n
          simp only [PCMManager.get_pcm]
          by_cases hn : n = b.node_id
          · subst hn
            rw [lookup_dictSet_self]
            have hd' : pm.pcms.lookup b.node_id = some d := hd
            rw [hd']
            rfl
          · rw [lookup_dictSet_ne _ _ _ _ hn]
        have hres1 : ∀ b2 ∈ rest,
            (chanState (PCMManager.mk (dictSet pm.pcms b.node_id
                { d with channels := chanUpdate d.channels b.channel_index v }))
              b2.node_id b2.channel_index).isSome = true := by
          intro b2 hb2
          rw [hchar1]
          by_cases hcase : b.node_id = b2.node_id ∧ b.channel_index = b2.channel_index
          · rw [if_pos hcase]
            have hx := hres b2 (List.mem_cons_of_mem b hb2)
            cases hy : chanState pm b2.node_id b2.channel_index with
            | none => rw [hy] at hx; exact absurd hx (by simp)
            | some s => rfl
          · rw [if_neg hcase]
            exact hres b2 (List.mem_cons_of_mem b hb2)
        obtain ⟨pm2, hrun, hchar2, hpres2⟩ := ih _ hres1
        refine ⟨pm2, ?_, ?_, ?_⟩
        · show cmdSet v pm (b :: rest) = Except.ok pm2
          rw [cmdSet, hd]
          simp only [hcmd]
          exact hrun
        · intro n c
          rw [hchar2, hchar1]
          by_cases h2 : touches rest n c
          · rw [if_pos h2]
            by_cases h1 : b.node_id = n ∧ b.channel_index = c
            · rw [if_pos h1, map_setReq_idem,
                if_pos ((touches_cons b rest n c).mpr (Or.inr h2))]
            · rw [if_neg h1,
                if_pos ((touches_cons b rest n c).mpr (Or.inr h2))]
          · rw [if_neg h2]
            by_cases h1 : b.node_id = n ∧ b.channel_index = c
            · rw [if_pos h1, if_pos ((touches_cons b rest n c).mpr (Or.inl h1))]
            · rw [if_neg h1, if_neg (fun hcons => by
                rcases (touches_cons b rest n c).mp hcons with h | h
                · exact h1 h
                · exact h2 h)]
        · intro n
          rw [hpres2, hpres1]

theorem isSome_ite_map (P : Prop) [Decidable P] (o : Option ChannelState) (v : Bool) :
    (if P then o.map (setReq v) else o).isSome = o.isSome := by
  by_cases h : P
  · rw [if_pos h]
    cases o <;> rfl
  · rw [if_neg h]

/-- One press of a CYCLE switch with configured steps: the index advances by
    one modulo the step count, every bound channel ends commanded exactly
    according to membership in the new step, and every binding still
    resolves. -/
theorem cycle_press_step (sw : LogicalSwitch) (pm : PCMManager)
    (hty : sw.switch_type = SwitchType.CYCLE)
    (hne : sw.cycles ≠ [])
    (hsub : StepsWF sw) (hinj : KeyInj sw.bindings) (hres : Resolves sw pm) :
    ∃ pm2,
      sw.press pm =
        Except.ok ({ sw with cycle_index := (sw.cycle_index + 1) % sw.cycles.length }, pm2)
      ∧ Resolves sw pm2
      ∧ ∀ b ∈ sw.bindings,
          (chanState pm2 b.node_id b.channel_index).map ChannelState.requested_on
            = some (decide (b ∈ sw.cycles.getD ((sw.cycle_index + 1) % sw.cycles.length) [])) := by
  have hE : sw.cycles.isEmpty = false := by
    cases hcy : sw.cycles with
    | nil => exact absurd hcy hne
    | cons a t => rfl
  have hlen : 0 < sw.cycles.length := List.length_pos.mpr hne
  have hidx : (sw.cycle_index + 1) % sw.cycles.length < sw.cycles.length :=
    Nat.mod_lt _ hlen
  have hstep_mem : sw.cycles.getD ((sw.cycle_index + 1) % sw.cycles.length) [] ∈ sw.cycles := by
    rw [List.getD_eq_get _ _ hidx]
    exact List.get_mem _ _ _
  have hres_step : ∀ b ∈ sw.cycles.getD ((sw.cycle_index + 1) % sw.cycles.length) [],
      (chanState pm b.node_id b.channel_index).isSome = true :=
    fun b hb => hres b (hsub _ hstep_mem b hb)
  obtain ⟨pm1, hrun1, hchar1, hpres1⟩ :=
    cmdSet_spec true (sw.cycles.getD ((sw.cycle_index + 1) % sw.cycles.length) []) pm hres_step
  have hres1 : ∀ b ∈ sw.bindings,
      (chanState pm1 b.node_id b.channel_index).isSome = true := by
    intro b hb
    rw [hchar1 b.node_id b.channel_index, isSome_ite_map]
    exact hres b hb
  have hres_l2 : ∀ b ∈ sw.bindings.filter
      (fun b => decide (b ∉ sw.cycles.getD ((sw.cycle_index + 1) % sw.cycles.length) [])),
      (chanState pm1 b.node_id b.channel_index).isSome = true :=
    fun b hb => hres1 b (List.mem_of_mem_filter hb)
  obtain ⟨pm2, hrun2, hchar2, hpres2⟩ :=
    cmdSet_spec false (sw.bindings.filter
      (fun b => decide (b ∉ sw.cycles.getD ((sw.cycle_index + 1) % sw.cycles.length) []))) pm1 hres_l2
  refine ⟨pm2, ?_, ?_, ?_⟩
  · simp only [LogicalSwitch.press, hty, LogicalSwitch.cycle, hE, Bool.false_eq_true,
      if_false, hrun1, hrun2]
  · intro b hb
    rw [hchar2 b.node_id b.channel_index, isSome_ite_map,
      hchar1 b.node_id b.channel_index, isSome_ite_map]
    exact hres b hb
  · intro b hb
    rw [hchar2 b.node_id b.channel_index, hchar1 b.node_id b.channel_index]
    by_cases hstep : b ∈ sw.cycles.getD ((sw.cycle_index + 1) % sw.cycles.length) []
    · have hnt : ¬touches (sw.bindings.filter
          (fun b => decide (b ∉ sw.cycles.getD ((sw.cycle_index + 1) % sw.cycles.length) [])))
          b.node_id b.channel_index := by
        rintro ⟨b2, hb2, hn, hc⟩
        have hmem := List.mem_filter.mp hb2
        have hb2' : b2 ∈ sw.bindings := hmem.1
        have hnot : b2 ∉ sw.cycles.getD ((sw.cycle_index + 1) % sw.cycles.length) [] :=
          of_decide_eq_true hmem.2
        exact hnot ((hinj b2 hb2' b hb hn hc) ▸ hstep)
      have ht : touches (sw.cycles.getD ((sw.cycle_index + 1) % sw.cycles.length) [])
          b.node_id b.channel_index := ⟨b, hstep, rfl, rfl⟩
      rw [if_neg hnt, if_pos ht]
      have hx := hres b hb
      cases hy : chanState pm b.node_id b.channel_index with
      | none => rw [hy] at hx; exact absurd hx (by simp)
      | some s =>
        simp [setReq]
        simpa using hstep
    · have hl2 : b ∈ sw.bindings.filter
          (fun b => decide (b ∉ sw.cycles.getD ((sw.cycle_index + 1) % sw.cycles.length) [])) :=
        List.mem_filter.mpr ⟨hb, decide_eq_true hstep⟩
      have ht : touches (sw.bindings.filter
          (fun b => decide (b ∉ sw.cycles.getD ((sw.cycle_index + 1) % sw.cycles.length) [])))
          b.node_id b.channel_index := ⟨b, hl2, rfl, rfl⟩
      rw [if_pos ht]
      have hx := hres1 b hb
      rw [hchar1 b.node_id b.channel_index] at hx
      obtain ⟨s, hs⟩ := Option.isSome_iff_exists.mp hx
      rw [hs]
      simp [setReq]
      simpa using hstep

/-- k presses (k at least 1) of a CYCLE switch with configured steps: the
    index advances by k modulo the step count and the commanded channels are
    exactly the members of the step the index lands on. -/
theorem cycle_pressN_spec (k : Nat) (sw : LogicalSwitch) (pm : PCMManager)
    (hk : 1 ≤ k)
    (hty : sw.switch_type = SwitchType.CYCLE) (hne : sw.cycles ≠ [])
    (hsub : StepsWF sw) (hinj : KeyInj sw.bindings) (hres : Resolves sw pm) :
    ∃ pm2, pressN k sw pm =
        Except.ok ({ sw with cycle_index := (sw.cycle_index + k) % sw.cycles.length }, pm2)
      ∧ ∀ b ∈ sw.bindings,
          (chanState pm2 b.node_id b.channel_index).map ChannelState.requested_on
            = some (decide (b ∈ sw.cycles.getD ((sw.cycle_index + k) % sw.cycles.length) [])) := by
  induction k generalizing sw pm with
  | zero => exact absurd hk (by omega)
  | succ k ih =>
    obtain ⟨pm1, hpress, hres1, hreq1⟩ := cycle_press_step sw pm hty hne hsub hinj hres
    have hunfold : pressN (k + 1) sw pm =
        match sw.press pm with
        | Except.error e => Except.error e
        | Except.ok (sw2, pm2) => pressN k sw2 pm2 := rfl
    by_cases hk0 : k = 0
    · subst hk0
      refine ⟨pm1, ?_, ?_⟩
      · rw [hunfold, hpress]
        rfl
      · intro b hb
        exact hreq1 b hb
    · have hk1 : 1 ≤ k := Nat.one_le_iff_ne_zero.mpr hk0
      obtain ⟨pm2, hrun, hreq⟩ :=
        ih { sw with cycle_index := (sw.cycle_index + 1) % sw.cycles.length } pm1
          hk1 hty hne hsub hinj hres1
      have harith : ((sw.cycle_index + 1) % sw.cycles.length + k) % sw.cycles.length
          = (sw.cycle_index + (k + 1)) % sw.cycles.length := by
        rw [Nat.mod_add_mod]
        congr 1
        omega
      refine ⟨pm2, ?_, ?_⟩
      · rw [hunfold, hpress]
        show pressN k { sw with cycle_index := (sw.cycle_index + 1) % sw.cycles.length } pm1 = _
        rw [hrun]
        simp [harith]
      · intro b hb
        have hx := hreq b hb
        simpa [harith] using hx

/-- C10: pressing a CYCLE switch whose cycle-step list is empty is a complete
    no-op: the returned switch is unchanged (same cycle index) and the manager
    state is returned untouched, so no channel command is issued and no
    requested_on changes; in particular there is no fallback to toggle
    behavior (that call is commented out in the source). -/
theorem cycle_press_no_steps (sw : LogicalSwitch) (pm : PCMManager)
    (hty : sw.switch_type = SwitchType.CYCLE) (hcy : sw.cycles = []) :
    sw.press pm = Except.ok (sw, pm) := by
  simp [LogicalSwitch.press, hty, LogicalSwitch.cycle, hcy]

/-- When every binding resolves, iterating the channel states succeeds and
    returns one state per binding, in order. -/
theorem iterStates_resolved (pm : PCMManager) (l : List ChannelBinding)
    (hres : ∀ b ∈ l, (chanState pm b.node_id b.channel_index).isSome = true) :
    ∃ states, iterStates pm l = Except.ok states ∧
      List.Forall₂ (fun (b : ChannelBinding) (s : ChannelState) =>
        chanState pm b.node_id b.channel_index = some s) l states := by
  induction l with
  | nil => exact ⟨[], rfl, List.Forall₂.nil⟩
  | cons b rest ih =>
    obtain ⟨states, hrun, hall⟩ := ih (fun b2 hb2 => hres b2 (List.mem_cons_of_mem b hb2))
    have hb := hres b (List.mem_cons_self b rest)
    rw [chanState] at hb
    cases hd : pm.get_pcm b.node_id with
    | none =>
      rw [hd] at hb
      exact absurd hb (by simp)
    | some d =>
      rw [hd] at hb
      simp only [Option.some_bind] at hb
      cases hc : d.channels.lookup b.channel_index with
      | none =>
        rw [hc] at hb
        exact absurd hb (by simp)
      | some c0 =>
        have hg : d.get_channel_state b.channel_index = Except.ok c0 := by
          rw [PCMDevice.get_channel_state, hc]
        have hcs : chanState pm b.node_id b.channel_index = some c0 := by
          rw [chanState, hd]
          simpa using hc
        refine ⟨c0 :: states, ?_, List.Forall₂.cons hcs hall⟩
        simp only [iterStates, hd, hg, hrun]

/-- C2: get_state derives the switch state from the bound channels reported
    values: FAULT when any resolved channel health is SHORT or OPEN (taking
    precedence), otherwise OFF when all actual-on are false, ON when all are
    true, PARTIAL when mixed, and UNKNOWN exactly when the switch has no
    bound channels. -/
theorem get_state_derivation (sw : LogicalSwitch) (pm : PCMManager)
    (hres : Resolves sw pm) :
    ∃ states st,
      sw.iter_channel_states pm = Except.ok states ∧
      states.length = sw.bindings.length ∧
      sw.get_state pm = Except.ok st ∧
      (st = SwitchState.UNKNOWN ↔ sw.bindings = []) ∧
      (st = SwitchState.FAULT ↔ sw.bindings ≠ [] ∧ ∃ s ∈ states,
          s.health = ChannelHealth.SHORT ∨ s.health = ChannelHealth.OPEN) ∧
      (st = SwitchState.OFF ↔ sw.bindings ≠ []
          ∧ (∀ s ∈ states, ¬(s.health = ChannelHealth.SHORT ∨ s.health = ChannelHealth.OPEN))
          ∧ (∀ s ∈ states, s.actual_on = false)) ∧
      (st = SwitchState.ON ↔ sw.bindings ≠ []
          ∧ (∀ s ∈ states, ¬(s.health = ChannelHealth.SHORT ∨ s.health = ChannelHealth.OPEN))
          ∧ (∀ s ∈ states, s.actual_on = true)) ∧
      (st = SwitchState.PARTIAL ↔ sw.bindings ≠ []
          ∧ (∀ s ∈ states, ¬(s.health = ChannelHealth.SHORT ∨ s.health = ChannelHealth.OPEN))
          ∧ ¬(∀ s ∈ states, s.actual_on = false)
          ∧ ¬(∀ s ∈ states, s.actual_on = true)) := by
  obtain ⟨states, hrun, hall⟩ := iterStates_resolved pm sw.bindings hres
  have hrun' : sw.iter_channel_states pm = Except.ok states := hrun
  have hlen : states.length = sw.bindings.length := (List.Forall₂.length_eq hall).symm
  have hPempty : states = [] ↔ sw.bindings = [] := by
    constructor
    · intro h
      have h0 : sw.bindings.length = 0 := by rw [← hlen, h]; rfl
      exact List.length_eq_zero.mp h0
    · intro h
      have h0 : states.length = 0 := by rw [hlen, h]; rfl
      exact List.length_eq_zero.mp h0
  have hgs : sw.get_state pm =
      Except.ok (if states.isEmpty then SwitchState.UNKNOWN
        else if states.any (fun st => st.health == ChannelHealth.SHORT
            || st.health == ChannelHealth.OPEN) then SwitchState.FAULT
        else if states.all (fun st => !st.actual_on) then SwitchState.OFF
        else if states.all (fun st => st.actual_on) then SwitchState.ON
        else SwitchState.PARTIAL) := by
    rw [LogicalSwitch.get_state]
    simp only [hrun']
    split_ifs <;> rfl
  refine ⟨states, _, hrun', hlen, hgs, ?_⟩
  by_cases hE : states.isEmpty = true
  · have hb0 : sw.bindings = [] := hPempty.mp (List.isEmpty_iff.mp hE)
    simp [hE, hb0]
  · have hE' : states.isEmpty = false := Bool.not_eq_true _ ▸ eq_false_of_ne_true hE
    have hsne : states ≠ [] := by
      intro h
      rw [h] at hE'
      exact absurd hE' (by simp)
    have hbne : sw.bindings ≠ [] := fun h => hsne (hPempty.mpr h)
    obtain ⟨s0, hs0⟩ : ∃ s, s ∈ states := by
      cases hst : states with
      | nil => exact absurd hst hsne
      | cons a t => exact ⟨a, hst ▸ List.mem_cons_self a t⟩
    by_cases hA : states.any (fun st => st.health == ChannelHealth.SHORT
        || st.health == ChannelHealth.OPEN) = true
    · have hfault : ∃ s ∈ states,
          s.health = ChannelHealth.SHORT ∨ s.health = ChannelHealth.OPEN := by
        simpa using hA
      have hcontra : ¬(∀ s ∈ states,
          ¬s.health = ChannelHealth.SHORT ∧ ¬s.health = ChannelHealth.OPEN) := by
        obtain ⟨s1, hs1, hh⟩ := hfault
        intro h
        rcases hh with hh | hh
        · exact (h s1 hs1).1 hh
        · exact (h s1 hs1).2 hh
      simp [hE', hA, hbne, hfault, hcontra] <;> tauto
    · have hA' : states.any (fun st => st.health == ChannelHealth.SHORT
          || st.health == ChannelHealth.OPEN) = false := eq_false_of_ne_true hA
      have hnofault : ∀ s ∈ states,
          ¬(s.health = ChannelHealth.SHORT ∨ s.health = ChannelHealth.OPEN) := by
        intro s hs
        have h1 := List.any_eq_false.mp hA' s hs
        simpa using h1
      have hnofault2 : ∀ s ∈ states,
          ¬s.health = ChannelHealth.SHORT ∧ ¬s.health = ChannelHealth.OPEN := by
        intro s hs
        exact ⟨fun h => hnofault s hs (Or.inl h), fun h => hnofault s hs (Or.inr h)⟩
      have hnex : ¬∃ s ∈ states,
          (s.health = ChannelHealth.SHORT ∨ s.health = ChannelHealth.OPEN) :=
        fun ⟨s, hs, hh⟩ => hnofault s hs hh
      by_cases hF : states.all (fun st => !st.actual_on) = true
      · have halloff : ∀ s ∈ states, s.actual_on = false := by
          intro s hs
          simpa using List.all_eq_true.mp hF s hs
        have hnallon : ¬(∀ s ∈ states, s.actual_on = true) := by
          intro h
          have h1 := halloff s0 hs0
          have h2 := h s0 hs0
          rw [h1] at h2
          exact absurd h2 (by simp)
        have hex_false : ∃ s ∈ states, s.actual_on = false := ⟨s0, hs0, halloff s0 hs0⟩
        simp [hE', hA', hF, hbne, hnofault2, hnex, halloff, hnallon, hex_false] <;> tauto
      · have hF' : states.all (fun st => !st.actual_on) = false := eq_false_of_ne_true hF
        have hnalloff : ¬(∀ s ∈ states, s.actual_on = false) := by
          intro h
          have : states.all (fun st => !st.actual_on) = true := by
            rw [List.all_eq_true]
            intro s hs
            simpa using h s hs
          exact absurd this hF
        have hex_true : ∃ s ∈ states, s.actual_on = true := by
          by_contra hno
          push_neg at hno
          apply hnalloff
          intro s hs
          cases hsa : s.actual_on
          · rfl
          · exact absurd hsa (hno s hs)
        by_cases hT : states.all (fun st => st.actual_on) = true
        · have hallon : ∀ s ∈ states, s.actual_on = true := fun s hs =>
            List.all_eq_true.mp hT s hs
          simp [hE', hA', hF', hT, hbne, hnofault2, hnex, hallon, hnalloff, hex_true] <;> tauto
        · have hT' : states.all (fun st => st.actual_on) = false := eq_false_of_ne_true hT
          have hnallon : ¬(∀ s ∈ states, s.actual_on = true) := by
            intro h
            exact absurd (List.all_eq_true.mpr h) hT
          have hex_false : ∃ s ∈ states, s.actual_on = false := by
            by_contra hno
            push_neg at hno
            apply hnallon
            intro s hs
            cases hsa : s.actual_on
            · exact absurd hsa (hno s hs)
            · rfl
          simp [hE', hA', hF', hT', hbne, hnofault2, hnex, hnalloff, hnallon,
            hex_true, hex_false] <;> tauto

/-- C2 witness: the derivation rules instantiated at a concrete switch whose
    single binding resolves on a freshly added device. -/
theorem get_state_derivation_witness :
    ∃ states st,
      swEx.iter_channel_states pmEx = Except.ok states ∧
      states.length = swEx.bindings.length ∧
      swEx.get_state pmEx = Except.ok st ∧
      (st = SwitchState.UNKNOWN ↔ swEx.bindings = []) ∧
      (st = SwitchState.FAULT ↔ swEx.bindings ≠ [] ∧ ∃ s ∈ states,
          s.health = ChannelHealth.SHORT ∨ s.health = ChannelHealth.OPEN) ∧
      (st = SwitchState.OFF ↔ swEx.bindings ≠ []
          ∧ (∀ s ∈ states, ¬(s.health = ChannelHealth.SHORT ∨ s.health = ChannelHealth.OPEN))
          ∧ (∀ s ∈ states, s.actual_on = false)) ∧
      (st = SwitchState.ON ↔ swEx.bindings ≠ []
          ∧ (∀ s ∈ states, ¬(s.health = ChannelHealth.SHORT ∨ s.health = ChannelHealth.OPEN))
          ∧ (∀ s ∈ states, s.actual_on = true)) ∧
      (st = SwitchState.PARTIAL ↔ swEx.bindings ≠ []
          ∧ (∀ s ∈ states, ¬(s.health = ChannelHealth.SHORT ∨ s.health = ChannelHealth.OPEN))
          ∧ ¬(∀ s ∈ states, s.actual_on = false)
          ∧ ¬(∀ s ∈ states, s.actual_on = true)) :=
  get_state_derivation swEx pmEx (by decide)

/-- C1 fails at k = 0: with a nonempty first cycle step, zero presses leave
    the freshly initialised state with every bound channel commanded OFF,
    while cycles[0 mod len] contains the binding, so the ON set is not
    cycles[0 mod len]. -/
theorem cycle_pressN_k0_counterexample :
    ¬ (∃ sw2 pm2, pressN 0 swEx pmEx = Except.ok (sw2, pm2)
        ∧ sw2.cycle_index = 0 % swEx.cycles.length
        ∧ ∀ b ∈ swEx.bindings,
            (chanState pm2 b.node_id b.channel_index).map ChannelState.requested_on
              = some (decide (b ∈ swEx.cycles.getD (0 % swEx.cycles.length) []))) := by
  rintro ⟨sw2, pm2, heq, -, hall⟩
  have h0 : pressN 0 swEx pmEx = Except.ok (swEx, pmEx) := rfl
  rw [h0] at heq
  injection heq with h1
  injection h1 with h2 h3
  subst h3
  have := hall bEx (by decide)
  exact absurd this (by decide)

/-- C1 (corrected): for any k at least 1 presses of a CYCLE switch starting
    from cycle index 0 - with nonempty steps each inside the bound set, all
    bound channels resolving, and distinct bindings addressing distinct
    channels - the run succeeds, the cycle index becomes k mod len(cycles),
    and the bound channels commanded ON are exactly the members of
    cycles[k mod len(cycles)].  At k = 0 the state is instead the unchanged
    initial one, which coincides with cycles[0] only when cycles[0] is
    empty. -/
theorem cycle_pressN_on_set (sw : LogicalSwitch) (pm : PCMManager) (k : Nat)
    (hk : 1 ≤ k)
    (hty : sw.switch_type = SwitchType.CYCLE) (hne : sw.cycles ≠ [])
    (hsub : StepsWF sw) (hinj : KeyInj sw.bindings) (hres : Resolves sw pm)
    (h0 : sw.cycle_index = 0) :
    ∃ sw2 pm2, pressN k sw pm = Except.ok (sw2, pm2)
      ∧ sw2.cycle_index = k % sw.cycles.length
      ∧ ∀ b ∈ sw.bindings,
          (chanState pm2 b.node_id b.channel_index).map ChannelState.requested_on
            = some (decide (b ∈ sw.cycles.getD (k % sw.cycles.length) [])) := by
  obtain ⟨pm2, hrun, hreq⟩ := cycle_pressN_spec k sw pm hk hty hne hsub hinj hres
  refine ⟨_, pm2, hrun, ?_, ?_⟩
  · simp [h0]
  · intro b hb
    have hx := hreq b hb
    rw [h0] at hx
    simpa using hx

/-- C1 witness: three presses of the spec end-to-end CYCLE switch (steps
    empty, channel 0, channels 0 and 1) land on step index 3 mod 3 = 0 with
    both channels commanded per membership in that step. -/
theorem cycle_pressN_on_set_witness :
    ∃ sw2 pm2, pressN 3 swEx2 pmEx = Except.ok (sw2, pm2)
      ∧ sw2.cycle_index = 3 % swEx2.cycles.length
      ∧ ∀ b ∈ swEx2.bindings,
          (chanState pm2 b.node_id b.channel_index).map ChannelState.requested_on
            = some (decide (b ∈ swEx2.cycles.getD (3 % swEx2.cycles.length) [])) :=
  cycle_pressN_on_set swEx2 pmEx 3 (by decide) (by decide) (by decide) (by decide)
    (by decide) (by decide) (by decide)

/-- C3: on a device with the constructor-built channel keys, set_channel_on
    and set_channel_off fail - with the KeyError that indexing the channels
    dictionary raises, the out-of-range failure - exactly for indices outside
    [0, NUM_CHANNELS), and do not fail on index validation inside the
    range. -/
theorem set_channel_range_check (d : PCMDevice) (i : Int) (hwf : d.ChannelsWF) :
    (¬(0 ≤ i ∧ i < (PCMDevice.NUM_CHANNELS : Int)) →
        d.set_channel_on i = Except.error PyError.KeyError
          ∧ d.set_channel_off i = Except.error PyError.KeyError)
      ∧ ((0 ≤ i ∧ i < (PCMDevice.NUM_CHANNELS : Int)) →
        (∃ d2, d.set_channel_on i = Except.ok d2)
          ∧ ∃ d2, d.set_channel_off i = Except.ok d2) := by
  constructor
  · intro hout
    have hnone : d.channels.lookup i = none := by
      cases hc : d.channels.lookup i with
      | none => rfl
      | some c => exact absurd ((hwf i).mp (by rw [hc]; rfl)) hout
    constructor
    · rw [PCMDevice.set_channel_on, hnone]
    · rw [PCMDevice.set_channel_off, hnone]
  · intro hin
    obtain ⟨c, hc⟩ := Option.isSome_iff_exists.mp ((hwf i).mpr hin)
    refine ⟨⟨{ d with channels := chanUpdate d.channels i true }, ?_⟩,
            ⟨{ d with channels := chanUpdate d.channels i false }, ?_⟩⟩
    · rw [PCMDevice.set_channel_on, hc]
    · rw [PCMDevice.set_channel_off, hc]

/-- C3 witness at a fresh device and the out-of-range index 30. -/
theorem set_channel_range_check_witness :
    (¬(0 ≤ (30 : Int) ∧ (30 : Int) < (PCMDevice.NUM_CHANNELS : Int)) →
        (mkPCMDevice 1 none).set_channel_on 30 = Except.error PyError.KeyError
          ∧ (mkPCMDevice 1 none).set_channel_off 30 = Except.error PyError.KeyError)
      ∧ ((0 ≤ (30 : Int) ∧ (30 : Int) < (PCMDevice.NUM_CHANNELS : Int)) →
        (∃ d2, (mkPCMDevice 1 none).set_channel_on 30 = Except.ok d2)
          ∧ ∃ d2, (mkPCMDevice 1 none).set_channel_off 30 = Except.ok d2) :=
  set_channel_range_check (mkPCMDevice 1 none) 30 (mkPCMDevice_wf 1 none)

/-- C4 as stated is false: adding node 1 a second time neither fails nor
    leaves the registry unchanged - the stored device is silently replaced by
    a fresh one (its name changes from A to B). -/
theorem add_pcm_duplicate_counterexample :
    (pmDup1.get_pcm 1).map PCMDevice.name = some "A"
      ∧ (pmDup2.get_pcm 1).map PCMDevice.name = some "B"
      ∧ pmDup2 ≠ pmDup1 := by
  refine ⟨?_, ?_, ?_⟩ <;> decide

/-- C4 (corrected): when node d is already registered, add_pcm(d, name) does
    not fail - it builds a fresh device, replaces the registry entry for d
    with it, returns it, and leaves every other entry unchanged. -/
theorem add_pcm_replaces (pm : PCMManager) (d : Int) (name : Option String)
    (hdup : (pm.get_pcm d).isSome = true) :
    (pm.add_pcm d name).1.get_pcm d = some (mkPCMDevice d name)
      ∧ (pm.add_pcm d name).2 = mkPCMDevice d name
      ∧ ∀ d2, d2 ≠ d → (pm.add_pcm d name).1.get_pcm d2 = pm.get_pcm d2 := by
  refine ⟨?_, rfl, ?_⟩
  · show (dictSet pm.pcms d (mkPCMDevice d name)).lookup d = _
    exact lookup_dictSet_self _ _ _
  · intro d2 hne
    show (dictSet pm.pcms d (mkPCMDevice d name)).lookup d2 = pm.pcms.lookup d2
    exact lookup_dictSet_ne _ _ _ _ hne

/-- C4 witness: re-adding node 1 over the registry that already holds it. -/
theorem add_pcm_replaces_witness :
    (pmDup1.add_pcm 1 (some "B")).1.get_pcm 1 = some (mkPCMDevice 1 (some "B"))
      ∧ (pmDup1.add_pcm 1 (some "B")).2 = mkPCMDevice 1 (some "B")
      ∧ ∀ d2, d2 ≠ (1 : Int) →
          (pmDup1.add_pcm 1 (some "B")).1.get_pcm d2 = pmDup1.get_pcm d2 :=
  add_pcm_replaces pmDup1 1 (some "B") (by decide)

/-- C5 as stated is false for the PCM manager: commanding or reading a
    channel of an unregistered node raises KeyError into the caller instead
    of being a no-op. -/
theorem unknown_node_command_counterexample :
    PCMManager.set_channel_on PCMManager.empty 1 0 = Except.error PyError.KeyError
      ∧ PCMManager.set_channel_off PCMManager.empty 1 0 = Except.error PyError.KeyError
      ∧ PCMManager.get_channel_state PCMManager.empty 1 0 = Except.error PyError.KeyError :=
  ⟨rfl, rfl, rfl⟩

/-- C5 (corrected): SwitchManager commands with an unknown switch name return
    normally as no-ops (the manager state passes through unchanged), but the
    PCMManager channel operations with an unregistered node id raise KeyError
    into the caller. -/
theorem unknown_key_behavior (sm : SwitchManager) (pm : PCMManager) (nm : String)
    (n c : Int) (hsw : sm.switches.lookup nm = none) (hpcm : pm.get_pcm n = none) :
    sm.set_switch_on nm pm = Except.ok pm
      ∧ sm.set_switch_off nm pm = Except.ok pm
      ∧ sm.toggle_switch nm pm = Except.ok pm
      ∧ pm.set_channel_on n c = Except.error PyError.KeyError
      ∧ pm.set_channel_off n c = Except.error PyError.KeyError
      ∧ pm.get_channel_state n c = Except.error PyError.KeyError := by
  have hpcm' : pm.pcms.lookup n = none := hpcm
  refine ⟨?_, ?_, ?_, ?_, ?_, ?_⟩
  · rw [SwitchManager.set_switch_on, hsw]
  · rw [SwitchManager.set_switch_off, hsw]
  · rw [SwitchManager.toggle_switch, hsw]
  · rw [PCMManager.set_channel_on, hpcm']
  · rw [PCMManager.set_channel_off, hpcm']
  · rw [PCMManager.get_channel_state, hpcm']

/-- C5 witness at empty managers, name Aux and node 1. -/
theorem unknown_key_behavior_witness :
    SwitchManager.empty.set_switch_on "Aux" PCMManager.empty = Except.ok PCMManager.empty
      ∧ SwitchManager.empty.set_switch_off "Aux" PCMManager.empty = Except.ok PCMManager.empty
      ∧ SwitchManager.empty.toggle_switch "Aux" PCMManager.empty = Except.ok PCMManager.empty
      ∧ PCMManager.empty.set_channel_on 1 0 = Except.error PyError.KeyError
      ∧ PCMManager.empty.set_channel_off 1 0 = Except.error PyError.KeyError
      ∧ PCMManager.empty.get_channel_state 1 0 = Except.error PyError.KeyError :=
  unknown_key_behavior SwitchManager.empty PCMManager.empty "Aux" 1 0 rfl rfl

/-- C6: for an in-range channel index, set_channel_on then get_channel_state
    reads back requested_on = true.  No transport send exists in the modelled
    command, and the conclusion is independent of the online flag (the device
    is universally quantified). -/
theorem set_on_then_read_requested (d : PCMDevice) (i : Int)
    (hwf : d.ChannelsWF) (hin : 0 ≤ i ∧ i < (PCMDevice.NUM_CHANNELS : Int)) :
    ∃ d2, d.set_channel_on i = Except.ok d2
      ∧ ∃ s, d2.get_channel_state i = Except.ok s ∧ s.requested_on = true := by
  obtain ⟨c, hc⟩ := Option.isSome_iff_exists.mp ((hwf i).mpr hin)
  have hl : (chanUpdate d.channels i true).lookup i = some (setReq true c) := by
    rw [chanUpdate, lookup_dictMapAt_self, hc]
    rfl
  refine ⟨{ d with channels := chanUpdate d.channels i true }, ?_, setReq true c, ?_, rfl⟩
  · rw [PCMDevice.set_channel_on, hc]
  · show (match (chanUpdate d.channels i true).lookup i with
      | none => Except.error PyError.KeyError
      | some c => Except.ok c) = Except.ok (setReq true c)
    rw [hl]

/-- C6 witness at a fresh device and channel 5. -/
theorem set_on_then_read_requested_witness :
    ∃ d2, (mkPCMDevice 1 none).set_channel_on 5 = Except.ok d2
      ∧ ∃ s, d2.get_channel_state 5 = Except.ok s ∧ s.requested_on = true :=
  set_on_then_read_requested (mkPCMDevice 1 none) 5 (mkPCMDevice_wf 1 none) (by decide)

/-- C7: BlinkPattern.evaluate is an unimplemented stub - it returns the empty
    mapping, with no entry for the target of the example pattern, at a time
    (1/4 of a period, duty 0.5, phase 0) where the documented blink formula
    demands that target be ON. -/
theorem blink_evaluate_stub_vs_spec :
    blinkEx.evaluate (1 / 4) = []
      ∧ (blinkEx.evaluate (1 / 4)).lookup blinkTargetEx = none
      ∧ blinkSpecOn blinkEx (1 / 4) = true
      ∧ blinkEx.targets = [blinkTargetEx] := by
  refine ⟨rfl, rfl, ?_, rfl⟩
  rw [blinkSpecOn, decide_eq_true_eq]
  norm_num [ratMod, blinkEx]

/-- C8: stop_all unconditionally empties the active set and the whole
    channel-ownership table, keeps the registered patterns, and issues no
    channel or switch command: the manager state, hence every channel state
    (requested_on included), is exactly as before the call. -/
theorem stop_all_clears_ownership_only (e : PatternEngine) (pm : PCMManager) :
    (e.stop_all pm).1.active = []
      ∧ (e.stop_all pm).1.channel_owners = []
      ∧ (e.stop_all pm).1.patterns = e.patterns
      ∧ (e.stop_all pm).2 = pm
      ∧ ∀ n c, chanState (e.stop_all pm).2 n c = chanState pm n c :=
  ⟨rfl, rfl, rfl, rfl, fun _ _ => rfl⟩

/-- C9: a successful local command (set_channel_on for v = true,
    set_channel_off for v = false) mutates only requested_on of the addressed
    channel: the device identity fields, every other channel, and the
    remaining fields of the addressed channel - health in particular, so a
    local command never moves any health to a fault state - are unchanged. -/
theorem set_channel_frame (d : PCMDevice) (i : Int) (v : Bool) (d2 : PCMDevice)
    (hcmd : (if v then d.set_channel_on i else d.set_channel_off i) = Except.ok d2) :
    d2.node_id = d.node_id ∧ d2.name = d.name ∧ d2.online = d.online
      ∧ (∀ j, j ≠ i → d2.channels.lookup j = d.channels.lookup j)
      ∧ ∃ c c2, d.channels.lookup i = some c ∧ d2.channels.lookup i = some c2
          ∧ c2.requested_on = v ∧ c2.index = c.index ∧ c2.health = c.health
          ∧ c2.current_amps = c.current_amps ∧ c2.actual_on = c.actual_on := by
  rw [set_channel_eq] at hcmd
  cases hc : d.channels.lookup i with
  | none =>
    rw [hc] at hcmd
    exact absurd hcmd (by simp)
  | some c =>
    rw [hc] at hcmd
    simp only [Except.ok.injEq] at hcmd
    subst hcmd
    refine ⟨rfl, rfl, rfl, ?_, ?_⟩
    · intro j hj
      show (chanUpdate d.channels i v).lookup j = _
      rw [chanUpdate, lookup_dictMapAt_ne _ _ _ _ hj]
    · refine ⟨c, setReq v c, rfl, ?_, rfl, rfl, rfl, rfl, rfl⟩
      show (chanUpdate d.channels i v).lookup i = _
      rw [chanUpdate, lookup_dictMapAt_self, hc]
      rfl

/-- C9 witness: commanding channel 3 of a fresh device ON. -/
theorem set_channel_frame_witness :
    dEx2.node_id = dEx.node_id ∧ dEx2.name = dEx.name ∧ dEx2.online = dEx.online
      ∧ (∀ j, j ≠ (3 : Int) → dEx2.channels.lookup j = dEx.channels.lookup j)
      ∧ ∃ c c2, dEx.channels.lookup 3 = some c ∧ dEx2.channels.lookup 3 = some c2
          ∧ c2.requested_on = true ∧ c2.index = c.index ∧ c2.health = c.health
          ∧ c2.current_amps = c.current_amps ∧ c2.actual_on = c.actual_on :=
  set_channel_frame dEx 3 true dEx2 (by rfl)

/-- C10 witness: a CYCLE switch with no steps pressed on the example
    manager. -/
theorem cycle_press_no_steps_witness :
    swExEmpty.press pmEx = Except.ok (swExEmpty, pmEx) :=
  cycle_press_no_steps swExEmpty pmEx rfl rfl

end OpenControlHead
